import Mathlib

/-!
Verification of the libhpl palette codec (src/libhpl/hpl.py).

Shallow embedding: byte strings become `List Nat`; Python exceptions become
an `Except HplError` result (or an explicit error component for stateful
loops); `bytearray` slice reads/writes become `List.take`/`List.drop`
combinations with Python's clamping semantics.

Error mapping (the Python code raises `ValueError` with a message; the spec
names the error kinds):
  "Not a valid HPL file!"                       -> HplError.formatError
  "Palette has N colors but ... up to 256!"     -> HplError.limitExceeded
  "No palette has been loaded!"                 -> HplError.notLoaded
  "Colors must be provided as RGBA!"            -> HplError.typeError
  "Mismatch between RGB and transparency data!" -> HplError.formatError
-/

/-- Constant `RAW_RGBA_SIZE = 4` from hpl.py line 7. -/
def RAW_RGBA_SIZE : Nat := 4

/-- Constant `RAW_RGB_SIZE = 3` from hpl.py line 8. -/
def RAW_RGB_SIZE : Nat := 3

/-- Constant `RAW_A_SIZE = 1` from hpl.py line 9. -/
def RAW_A_SIZE : Nat := 1

/-- Constant `HPL_MAX_COLORS = 256` from hpl.py line 11. -/
def HPL_MAX_COLORS : Nat := 256

/-- Constant `PALETTE_SQUARE_SIZE = 16` from hpl.py line 12. -/
def PALETTE_SQUARE_SIZE : Nat := 16

/-- The exact 32-byte magic header `HPAL_HEADER` from hpl.py lines 14-15,
written out byte by byte. -/
def HPAL_HEADER : List Nat :=
  [72, 80, 65, 76, 37, 1, 0, 0, 32, 4, 0, 0, 0, 1, 0, 0, 0, 0,
   0, 0, 0, 0, 0, 0, 1, 0, 0, 16, 0, 0, 0, 0]

/-- Error kinds, following the taxonomy in the spec; see the mapping from
Python `ValueError` messages in the file header. -/
inductive HplError where
  | formatError
  | limitExceeded
  | notLoaded
  | typeError
  | rangeError
deriving DecidableEq

/-- The `while remaining_argb:` loop of `_parse_color_data` (hpl.py lines
52-59): repeatedly consume 1 byte (alpha) then up to 3 bytes (color) and
emit the 3 color bytes followed by the alpha byte.  The input here is the
already-reversed color data. -/
def parseLoop : List Nat → List Nat
  | [] => []
  | [a] => [a]
  | [a, r] => [r, a]
  | [a, r, g] => [r, g, a]
  | a :: r :: g :: b :: rest => r :: g :: b :: a :: parseLoop rest

/-- `_parse_color_data` (hpl.py lines 35-61): computes
`num_colors = len(color_data) // 4`, fails with `LimitExceeded` when it
exceeds `HPL_MAX_COLORS`, otherwise reverses the data and runs the
consuming loop.  There is no divisibility-by-4 check in the source. -/
def _parse_color_data (colorData : List Nat) : Except HplError (List Nat) :=
  if colorData.length / (RAW_RGB_SIZE + RAW_A_SIZE) > HPL_MAX_COLORS then
    .error .limitExceeded
  else
    .ok (parseLoop colorData.reverse)

/-- `_load_hpl` (hpl.py lines 64-87), restricted to the byte-level logic:
check that the contents start with the exact header, strip it, and parse
the rest.  (The file/BytesIO dispatch is I/O plumbing outside the model.) -/
def _load_hpl (contents : List Nat) : Except HplError (List Nat) :=
  if HPAL_HEADER.isPrefixOf contents then
    _parse_color_data (contents.drop HPAL_HEADER.length)
  else
    .error .formatError

/-- The `while remaining_abgr:` loop of `_save_hpl` (hpl.py lines 110-118):
consume 1 byte (alpha) then up to 3 bytes (bgr), emit bgr followed by
alpha.  The input is the already-reversed in-memory RGBA buffer. -/
def saveLoop : List Nat → List Nat
  | [] => []
  | [a] => [a]
  | [a, b] => [b, a]
  | [a, b, g] => [b, g, a]
  | a :: b :: g :: r :: rest => b :: g :: r :: a :: saveLoop rest

/-- `_save_hpl` (hpl.py lines 90-119) as the byte sequence it writes:
the limit check, then the header followed by the output of the reversal
loop.  (File output plumbing is outside the model.) -/
def _save_hpl (rgba : List Nat) : Except HplError (List Nat) :=
  if rgba.length / (RAW_RGB_SIZE + RAW_A_SIZE) > HPL_MAX_COLORS then
    .error .limitExceeded
  else
    .ok (HPAL_HEADER ++ saveLoop rgba.reverse)

/-- A palette index as accepted by `_index_to_offset` (hpl.py lines
121-139): either a bare integer, or an (x, y) pair into the 16x16 grid. -/
inductive PaletteIndex where
  | linear (i : Nat)
  | coord (x y : Nat)

/-- The linear palette index an index argument resolves to: the integer
itself, or `y * PALETTE_SQUARE_SIZE + x` for a coordinate pair
(hpl.py line 133). -/
def resolveLinear : PaletteIndex → Nat
  | .linear i => i
  | .coord x y => y * PALETTE_SQUARE_SIZE + x

/-- `_index_to_offset` (hpl.py lines 121-139): the resolved linear index
times `RAW_RGBA_SIZE`.  No bounds check is performed. -/
def _index_to_offset (index : PaletteIndex) : Nat :=
  resolveLinear index * RAW_RGBA_SIZE

/-- `HPLPalette._get_index_color` (hpl.py lines 164-170): the Python slice
`self.rgba[offset : offset+4]`, i.e. drop then take with clamping. -/
def _get_index_color (rgba : List Nat) (index : PaletteIndex) : List Nat :=
  (rgba.drop (_index_to_offset index)).take RAW_RGBA_SIZE

/-- `HPLPalette.get_index_color` (hpl.py lines 172-179): `NotLoaded` on an
empty buffer, otherwise the raw slice (however short it may be). -/
def get_index_color (rgba : List Nat) (index : PaletteIndex) :
    Except HplError (List Nat) :=
  if rgba = [] then .error .notLoaded
  else .ok (_get_index_color rgba index)

/-- `HPLPalette._set_index_color` (hpl.py lines 196-212): validate that the
color has exactly 4 bytes, then perform the Python slice assignment
`self.rgba[offset : offset+4] = rgba`, which for a valid nonneg range is
`take offset ++ color ++ drop (offset+4)` with clamping (so an offset past
the end appends).  Returns the new buffer. -/
def _set_index_color (rgba : List Nat) (index : PaletteIndex)
    (color : List Nat) : Except HplError (List Nat) :=
  if color.length ≠ RAW_RGBA_SIZE then .error .typeError
  else
    .ok (rgba.take (_index_to_offset index) ++ color ++
      rgba.drop (_index_to_offset index + RAW_RGBA_SIZE))

/-- `HPLPalette.set_index_color` (hpl.py lines 214-221). -/
def set_index_color (rgba : List Nat) (index : PaletteIndex)
    (color : List Nat) : Except HplError (List Nat) :=
  if rgba = [] then .error .notLoaded
  else _set_index_color rgba index color

/-- The `for index, rgba in index_colors:` loop of `set_index_color_range`
(hpl.py lines 230-231): apply each update in turn; an exception aborts the
loop but the palette keeps every mutation already made (Python mutates the
bytearray in place).  Returns the final buffer plus the error, if any. -/
def setRangeLoop (rgba : List Nat) :
    List (PaletteIndex × List Nat) → List Nat × Option HplError
  | [] => (rgba, none)
  | (index, color) :: rest =>
    match _set_index_color rgba index color with
    | .error e => (rgba, some e)
    | .ok rgba2 => setRangeLoop rgba2 rest

/-- `HPLPalette.set_index_color_range` (hpl.py lines 223-231). -/
def set_index_color_range (rgba : List Nat)
    (indexColors : List (PaletteIndex × List Nat)) :
    List Nat × Option HplError :=
  if rgba = [] then (rgba, some .notLoaded)
  else setRangeLoop rgba indexColors

/-- The `while remaining_rgb:` loop of `_load_png` (hpl.py lines 256-261):
interleave up to 3 RGB bytes then 1 alpha byte per group, in supplied
order (no reversal). -/
def interleaveLoop : List Nat → List Nat → List Nat
  | [], _ => []
  | [r1], alpha => [r1] ++ alpha.take 1
  | [r1, r2], alpha => [r1, r2] ++ alpha.take 1
  | r1 :: r2 :: r3 :: rest, alpha =>
    [r1, r2, r3] ++ alpha.take 1 ++ interleaveLoop rest (alpha.drop 1)

/-- `_load_png` (hpl.py lines 234-263), restricted to the palette bridge
record it consumes: the parallel RGB and alpha byte arrays extracted from
the image by the external collaborator.  Validates
`len(rgb) == len(alpha) * 3` and interleaves into the RGBA buffer. -/
def _load_png (rgb alpha : List Nat) : Except HplError (List Nat) :=
  if rgb.length ≠ alpha.length * RAW_RGB_SIZE then .error .formatError
  else .ok (interleaveLoop rgb alpha)

/-- The coordinate a linear palette index maps to, from
`PNGPaletteImage._get_palette_index` (hpl.py lines 407-408):
`x = i % 16`, `y = (i - x) / 16`. -/
def linearToCoord (i : Nat) : Nat × Nat :=
  (i % PALETTE_SQUARE_SIZE,
   (i - i % PALETTE_SQUARE_SIZE) / PALETTE_SQUARE_SIZE)

/-- `PNGPaletteImage._get_palette_index` (hpl.py lines 396-410): read the
palette index byte at pixel offset `y*width + x` and convert it to its
(column, row) coordinate. -/
def _get_palette_index (imageData : List Nat) (width x y : Nat) :
    Nat × Nat :=
  linearToCoord (imageData.getD (y * width + x) 0)

/-- One fill request issued by `PNGPalette._draw_image` (hpl.py lines
325-360): the `palette.colors` dict assignment `colors[(x, y)] = i`, the
rectangle corner parameters passed to `d.rectangle`, and the `fill`
argument. -/
structure DrawCmd where
  colorsKey : Nat × Nat
  colorsVal : Nat
  x0 : Nat
  y0 : Nat
  x1 : Nat
  y1 : Nat
  fill : Nat × Nat
deriving DecidableEq

/-- The `for palette_index in range(HPL_MAX_COLORS):` loop of
`PNGPalette._draw_image` (hpl.py lines 338-360), carrying the mutable
cursor (x, y) exactly as the source updates it. -/
def drawLoop (pixelSize : Nat) : Nat → Nat → Nat → Nat → List DrawCmd
  | _, _, _, 0 => []
  | x, y, idx, Nat.succ rem =>
    ⟨(x, y), idx, x * pixelSize, y * pixelSize,
     x * pixelSize + pixelSize, y * pixelSize + pixelSize, (x, y)⟩ ::
    drawLoop pixelSize ((x + 1) % PALETTE_SQUARE_SIZE)
      (if (x + 1) % PALETTE_SQUARE_SIZE = 0 then y + 1 else y)
      (idx + 1) rem

/-- `PNGPalette._draw_image` (hpl.py lines 325-360) as the sequence of
fill requests it issues: the loop starting at x = 0, y = 0, over all
`HPL_MAX_COLORS` palette indices. -/
def _draw_image (pixelSize : Nat) : List DrawCmd :=
  drawLoop pixelSize 0 0 0 HPL_MAX_COLORS

/-- The set of pixels covered by a fill command, reading its rectangle
parameters as the block of `pixelSize * pixelSize` pixels anchored at the
top-left corner (half-open on the right/bottom). -/
def cmdCovers (c : DrawCmd) (p : Nat × Nat) : Prop :=
  c.x0 ≤ p.1 ∧ p.1 < c.x1 ∧ c.y0 ≤ p.2 ∧ p.2 < c.y1

instance (c : DrawCmd) (p : Nat × Nat) : Decidable (cmdCovers c p) := by
  unfold cmdCovers; infer_instance

/-! ## Lemmas about the codec loops -/

theorem parseLoop_length (l : List Nat) : (parseLoop l).length = l.length := by
  induction l using parseLoop.induct <;> simp [parseLoop, *]

theorem saveLoop_eq_parseLoop (l : List Nat) : saveLoop l = parseLoop l := by
  induction l using saveLoop.induct <;> simp [parseLoop, saveLoop, *]

theorem parseLoop_append4 :
    ∀ (n : Nat) (l m : List Nat), l.length = 4 * n →
      parseLoop (l ++ m) = parseLoop l ++ parseLoop m := by
  intro n
  induction n with
  | zero =>
    intro l m h
    have hl : l = [] := List.eq_nil_of_length_eq_zero (by omega)
    subst hl
    simp [parseLoop]
  | succ k ih =>
    intro l m h
    match l with
    | [] => simp at h
    | [a] => simp at h; omega
    | [a, b] => simp at h; omega
    | [a, b, c] => simp at h; omega
    | a :: b :: c :: d :: t =>
      have ht : t.length = 4 * k := by simp at h; omega
      simp only [List.cons_append, parseLoop, List.append_eq]
      rw [ih t m ht]

theorem parseLoop_invol :
    ∀ (n : Nat) (l : List Nat), l.length = 4 * n →
      parseLoop (parseLoop l).reverse = l.reverse := by
  intro n
  induction n with
  | zero =>
    intro l h
    have hl : l = [] := List.eq_nil_of_length_eq_zero (by omega)
    subst hl
    simp [parseLoop]
  | succ k ih =>
    intro l h
    match l with
    | [] => simp at h
    | [a] => simp at h; omega
    | [a, b] => simp at h; omega
    | [a, b, c] => simp at h; omega
    | a :: b :: c :: d :: t =>
      have ht : t.length = 4 * k := by simp at h; omega
      have h1 : (parseLoop (a :: b :: c :: d :: t)).reverse =
          (parseLoop t).reverse ++ [a, d, c, b] := by
        simp [parseLoop]
      rw [h1,
        parseLoop_append4 k ((parseLoop t).reverse) [a, d, c, b]
          (by rw [List.length_reverse, parseLoop_length]; exact ht),
        ih t ht]
      simp [parseLoop]

theorem saveLoop_length (l : List Nat) : (saveLoop l).length = l.length := by
  rw [saveLoop_eq_parseLoop, parseLoop_length]

theorem load_append_header (body : List Nat) :
    _load_hpl (HPAL_HEADER ++ body) = _parse_color_data body := by
  unfold _load_hpl
  have hpre : HPAL_HEADER.isPrefixOf (HPAL_HEADER ++ body) = true := by
    rw [List.isPrefixOf_iff_prefix]
    exact List.prefix_append _ _
  rw [if_pos hpre, List.drop_left]

/-! ## Claim theorems: codec -/

/-- C1: HPL codec round-trip.  For every canonical palette of 1..256 RGBA
entries (flat length a positive multiple of 4, at most 1024 bytes),
decoding the bytes produced by encoding yields exactly the palette; and
for every well-formed HPL byte sequence (exact 32-byte header plus a body
whose length is a multiple of 4 with at most 256 groups), encoding the
decoded palette reproduces the bytes exactly. -/
theorem hpl_roundtrip :
    (∀ P : List Nat, P.length % 4 = 0 → 0 < P.length → P.length ≤ 1024 →
      ∃ B, _save_hpl P = .ok B ∧ _load_hpl B = .ok P) ∧
    (∀ body : List Nat, body.length % 4 = 0 → body.length ≤ 1024 →
      ∃ P, _load_hpl (HPAL_HEADER ++ body) = .ok P ∧
        _save_hpl P = .ok (HPAL_HEADER ++ body)) := by
  constructor
  · intro P hmod hpos hle
    have hsave : _save_hpl P = .ok (HPAL_HEADER ++ saveLoop P.reverse) := by
      unfold _save_hpl
      rw [if_neg (by simp [RAW_RGB_SIZE, RAW_A_SIZE, HPL_MAX_COLORS]; omega)]
    refine ⟨HPAL_HEADER ++ saveLoop P.reverse, hsave, ?_⟩
    rw [load_append_header]
    unfold _parse_color_data
    have hlen : (saveLoop P.reverse).length = P.length := by
      rw [saveLoop_length, List.length_reverse]
    rw [if_neg (by simp [RAW_RGB_SIZE, RAW_A_SIZE, HPL_MAX_COLORS, hlen]; omega)]
    rw [saveLoop_eq_parseLoop,
      parseLoop_invol (P.length / 4) P.reverse
        (by rw [List.length_reverse]; omega),
      List.reverse_reverse]
  · intro body hmod hle
    have hload : _load_hpl (HPAL_HEADER ++ body) =
        .ok (parseLoop body.reverse) := by
      rw [load_append_header]
      unfold _parse_color_data
      rw [if_neg (by simp [RAW_RGB_SIZE, RAW_A_SIZE, HPL_MAX_COLORS]; omega)]
    refine ⟨parseLoop body.reverse, hload, ?_⟩
    unfold _save_hpl
    have hlen : (parseLoop body.reverse).length = body.length := by
      rw [parseLoop_length, List.length_reverse]
    rw [if_neg (by simp [RAW_RGB_SIZE, RAW_A_SIZE, HPL_MAX_COLORS, hlen]; omega)]
    rw [saveLoop_eq_parseLoop,
      parseLoop_invol (body.length / 4) body.reverse
        (by rw [List.length_reverse]; omega),
      List.reverse_reverse]

/-- Witness for C1: the concrete 1-entry palette (3,2,1,4) survives the
encode/decode round trip, and the concrete well-formed file
header ++ (1,2,3,4) survives the decode/encode round trip. -/
theorem hpl_roundtrip_witness :
    (∃ B, _save_hpl [3, 2, 1, 4] = .ok B ∧ _load_hpl B = .ok [3, 2, 1, 4]) ∧
    (∃ P, _load_hpl (HPAL_HEADER ++ [1, 2, 3, 4]) = .ok P ∧
      _save_hpl P = .ok (HPAL_HEADER ++ [1, 2, 3, 4])) :=
  ⟨hpl_roundtrip.1 [3, 2, 1, 4] (by decide) (by decide) (by decide),
   hpl_roundtrip.2 [1, 2, 3, 4] (by decide) (by decide)⟩

/-- C6: decode fails with FormatError for every input that does not start
with the exact 32-byte magic header, and for every input that does start
with it exactly the first 32 bytes are stripped before the body is
parsed. -/
theorem header_check :
    HPAL_HEADER.length = 32 ∧
    (∀ contents : List Nat, ¬ HPAL_HEADER <+: contents →
      _load_hpl contents = .error .formatError) ∧
    (∀ contents : List Nat, HPAL_HEADER <+: contents →
      _load_hpl contents = _parse_color_data (contents.drop 32)) := by
  refine ⟨rfl, fun c h => ?_, fun c h => ?_⟩
  · unfold _load_hpl
    rw [if_neg]
    rw [List.isPrefixOf_iff_prefix]
    exact h
  · unfold _load_hpl
    rw [if_pos (by rw [List.isPrefixOf_iff_prefix]; exact h)]
    rfl

/-- Witness for C6: a concrete non-header input fails with FormatError,
and a concrete header-prefixed input is parsed from byte 32 on. -/
theorem header_check_witness :
    _load_hpl [0, 1, 2] = .error .formatError ∧
    _load_hpl (HPAL_HEADER ++ [9, 9, 9, 9]) =
      _parse_color_data ((HPAL_HEADER ++ [9, 9, 9, 9]).drop 32) :=
  ⟨header_check.2.1 [0, 1, 2] (by decide),
   header_check.2.2 (HPAL_HEADER ++ [9, 9, 9, 9])
     (by exact List.prefix_append _ _)⟩

/-- C4 counterexample: the input consisting of the exact 32-byte header
followed by a single body byte (body length 1, not a multiple of 4)
decodes successfully to that byte — `_parse_color_data` has no
divisibility-by-4 check, so no FormatError is raised. -/
theorem no_divisibility_check_counterexample :
    _load_hpl (HPAL_HEADER ++ [7]) = .ok [7] ∧
    ((HPAL_HEADER ++ [7]).drop 32).length % 4 = 1 := ⟨rfl, rfl⟩

/-- C4 amended: decode performs no divisibility-by-4 check on the
post-header body.  Any body with at most 256 whole 4-byte groups —
whether or not its length is a multiple of 4 — is decoded without error
by the reversal walk (the final group may be short), and the decoded
buffer has exactly the body's length. -/
theorem no_divisibility_check_amended :
    ∀ body : List Nat, body.length / 4 ≤ 256 →
      _load_hpl (HPAL_HEADER ++ body) = .ok (parseLoop body.reverse) ∧
      (parseLoop body.reverse).length = body.length := by
  intro body h
  constructor
  · rw [load_append_header]
    unfold _parse_color_data
    rw [if_neg (by simp [RAW_RGB_SIZE, RAW_A_SIZE, HPL_MAX_COLORS]; omega)]
  · rw [parseLoop_length, List.length_reverse]

/-- Witness for the amended C4: a concrete 5-byte body (not a multiple of
4) decodes without error to a 5-byte buffer. -/
theorem no_divisibility_check_amended_witness :
    _load_hpl (HPAL_HEADER ++ [1, 2, 3, 4, 5]) =
      .ok (parseLoop [1, 2, 3, 4, 5].reverse) ∧
    (parseLoop ([1, 2, 3, 4, 5] : List Nat).reverse).length =
      ([1, 2, 3, 4, 5] : List Nat).length :=
  no_divisibility_check_amended [1, 2, 3, 4, 5] (by decide)

/-- C5: the 256-entry limit is enforced in both directions: decoding a
post-header body fails with LimitExceeded exactly when the body holds
more than 256 whole 4-byte groups, and encoding fails with LimitExceeded
exactly when the buffer holds more than 256 4-byte entries; at or below
the limit both return a result instead. -/
theorem limit_enforced :
    (∀ body : List Nat,
      (_parse_color_data body = .error .limitExceeded ↔
        256 < body.length / 4) ∧
      (body.length / 4 ≤ 256 →
        _parse_color_data body = .ok (parseLoop body.reverse))) ∧
    (∀ body : List Nat,
      _load_hpl (HPAL_HEADER ++ body) = _parse_color_data body) ∧
    (∀ rgba : List Nat,
      (_save_hpl rgba = .error .limitExceeded ↔ 256 < rgba.length / 4) ∧
      (rgba.length / 4 ≤ 256 →
        _save_hpl rgba = .ok (HPAL_HEADER ++ saveLoop rgba.reverse))) := by
  refine ⟨fun body => ⟨?_, ?_⟩, load_append_header, fun rgba => ⟨?_, ?_⟩⟩
  · unfold _parse_color_data
    by_cases h : 256 < body.length / 4
    · rw [if_pos (by simpa [RAW_RGB_SIZE, RAW_A_SIZE, HPL_MAX_COLORS] using h)]
      simp [h]
    · rw [if_neg (by simp [RAW_RGB_SIZE, RAW_A_SIZE, HPL_MAX_COLORS]; omega)]
      simp [h]
  · intro h
    unfold _parse_color_data
    rw [if_neg (by simp [RAW_RGB_SIZE, RAW_A_SIZE, HPL_MAX_COLORS]; omega)]
  · unfold _save_hpl
    by_cases h : 256 < rgba.length / 4
    · rw [if_pos (by simpa [RAW_RGB_SIZE, RAW_A_SIZE, HPL_MAX_COLORS] using h)]
      simp [h]
    · rw [if_neg (by simp [RAW_RGB_SIZE, RAW_A_SIZE, HPL_MAX_COLORS]; omega)]
      simp [h]
  · intro h
    unfold _save_hpl
    rw [if_neg (by simp [RAW_RGB_SIZE, RAW_A_SIZE, HPL_MAX_COLORS]; omega)]

/-- Witness for C5: a body of 257*4 = 1028 bytes fails with LimitExceeded,
a buffer of 257 entries fails on encode, and a 1024-byte body (exactly
256 groups) decodes without the error. -/
theorem limit_enforced_witness :
    _parse_color_data (List.replicate 1028 0) = .error .limitExceeded ∧
    _save_hpl (List.replicate 1028 0) = .error .limitExceeded ∧
    _parse_color_data (List.replicate 1024 0) =
      .ok (parseLoop (List.replicate 1024 (0 : Nat)).reverse) :=
  ⟨((limit_enforced.1 (List.replicate 1028 0)).1).mpr
     (by rw [List.length_replicate]; try omega),
   ((limit_enforced.2.2 (List.replicate 1028 0)).1).mpr
     (by rw [List.length_replicate]; try omega),
   (limit_enforced.1 (List.replicate 1024 0)).2
     (by rw [List.length_replicate]; try omega)⟩

/-! ## Claim theorems: index mapping and palette object -/

/-- C7: the linear/coordinate index bijection.  Converting a linear index
in 0..255 to (column, row) by the source's mod/div formulas and back by
the source's row*16 + column formula is the identity, and the composition
in the other order is the identity on 0..15 x 0..15. -/
theorem index_bijection :
    (∀ i : Nat, i < 256 →
      resolveLinear (.coord (linearToCoord i).1 (linearToCoord i).2) = i) ∧
    (∀ x y : Nat, x < 16 → y < 16 →
      linearToCoord (resolveLinear (.coord x y)) = (x, y)) := by
  constructor
  · intro i hi
    simp only [linearToCoord, resolveLinear, PALETTE_SQUARE_SIZE]
    omega
  · intro x y hx hy
    simp only [linearToCoord, resolveLinear, PALETTE_SQUARE_SIZE,
      Prod.mk.injEq]
    omega

/-- Witness for C7: the bijection evaluated at linear index 37 and at the
coordinate pair (5, 2). -/
theorem index_bijection_witness :
    resolveLinear
      (.coord (linearToCoord 37).1 (linearToCoord 37).2) = 37 ∧
    linearToCoord (resolveLinear (.coord 5 2)) = (5, 2) :=
  ⟨index_bijection.1 37 (by decide), index_bijection.2 5 2 (by decide) (by decide)⟩

/-- C3 counterexample: on a loaded 1-entry palette, `get_index_color` at
the out-of-range linear index 5 silently returns an empty byte string
instead of failing with RangeError, and `set_index_color` at the
out-of-range linear index 1 silently grows the buffer from 4 to 8 bytes
instead of failing with RangeError. -/
theorem no_range_error_counterexample :
    get_index_color [1, 2, 3, 4] (.linear 5) = .ok [] ∧
    set_index_color [1, 2, 3, 4] (.linear 1) [9, 9, 9, 9] =
      .ok [1, 2, 3, 4, 9, 9, 9, 9] := ⟨rfl, rfl⟩

/-- C3 amended: `get_index_color` and `set_index_color` fail with
NotLoaded whenever the palette buffer is empty; but an index that
resolves outside the current entry count is not rejected: `get` silently
returns the clamped (here empty) slice, and `set` of a 4-byte color at an
offset at or past the end silently appends the color, growing the
buffer. -/
theorem no_range_error_amended :
    (∀ index, get_index_color [] index = .error .notLoaded) ∧
    (∀ index color, set_index_color [] index color = .error .notLoaded) ∧
    (∀ rgba index, rgba ≠ [] → rgba.length ≤ _index_to_offset index →
      get_index_color rgba index = .ok []) ∧
    (∀ rgba index color, rgba ≠ [] → color.length = RAW_RGBA_SIZE →
      rgba.length ≤ _index_to_offset index →
      set_index_color rgba index color = .ok (rgba ++ color)) := by
  refine ⟨fun index => rfl, fun index color => rfl,
    fun rgba index h hoff => ?_, fun rgba index color h hc hoff => ?_⟩
  · unfold get_index_color
    rw [if_neg h]
    unfold _get_index_color
    rw [List.drop_eq_nil_of_le hoff]
    rfl
  · unfold set_index_color
    rw [if_neg h]
    unfold _set_index_color
    rw [if_neg (by omega)]
    rw [List.take_of_length_le hoff,
      List.drop_eq_nil_of_le (by unfold RAW_RGBA_SIZE; omega)]
    simp

/-- Witness for the amended C3: evaluated on the empty buffer and on a
concrete 1-entry buffer with the out-of-range index 7. -/
theorem no_range_error_amended_witness :
    get_index_color [] (.linear 0) = .error .notLoaded ∧
    set_index_color [] (.linear 0) [9, 9, 9, 9] = .error .notLoaded ∧
    get_index_color [1, 2, 3, 4] (.linear 7) = .ok [] ∧
    set_index_color [1, 2, 3, 4] (.linear 7) [9, 9, 9, 9] =
      .ok ([1, 2, 3, 4] ++ [9, 9, 9, 9]) :=
  ⟨no_range_error_amended.1 (.linear 0),
   no_range_error_amended.2.1 (.linear 0) [9, 9, 9, 9],
   no_range_error_amended.2.2.1 [1, 2, 3, 4] (.linear 7) (by decide)
     (by decide),
   no_range_error_amended.2.2.2 [1, 2, 3, 4] (.linear 7) [9, 9, 9, 9]
     (by decide) (by decide) (by decide)⟩

/-- C2 counterexample: batch assignment is not atomic.  On a loaded
2-entry palette, a batch whose second update has an invalid (2-byte)
color fails, yet the first update is already applied; and on a loaded
1-entry palette, a batch whose second update targets the out-of-range
index 5 does not fail at all — it extends the buffer. -/
theorem batch_not_atomic_counterexample :
    set_index_color_range [0, 0, 0, 0, 0, 0, 0, 0]
      [(.linear 0, [9, 9, 9, 9]), (.linear 1, [1, 2])] =
      ([9, 9, 9, 9, 0, 0, 0, 0], some .typeError) ∧
    set_index_color_range [0, 0, 0, 0]
      [(.linear 0, [9, 9, 9, 9]), (.linear 5, [1, 2, 3, 4])] =
      ([9, 9, 9, 9, 1, 2, 3, 4], none) := ⟨rfl, rfl⟩

/-- C2 amended: batch assignment applies updates sequentially, not
atomically.  For a two-update batch whose first update succeeds: if the
second update's color is not exactly 4 bytes the call fails but leaves
the first update applied; if the second color is 4 bytes the call
succeeds for any second index whatsoever (an out-of-range index extends
the buffer rather than failing). -/
theorem batch_sequential_amended :
    ∀ (rgba : List Nat) (i1 : PaletteIndex) (c1 : List Nat)
      (i2 : PaletteIndex) (c2 rgba2 : List Nat), rgba ≠ [] →
      _set_index_color rgba i1 c1 = .ok rgba2 →
      (c2.length ≠ RAW_RGBA_SIZE →
        set_index_color_range rgba [(i1, c1), (i2, c2)] =
          (rgba2, some .typeError)) ∧
      (c2.length = RAW_RGBA_SIZE →
        set_index_color_range rgba [(i1, c1), (i2, c2)] =
          (rgba2.take (_index_to_offset i2) ++ c2 ++
            rgba2.drop (_index_to_offset i2 + RAW_RGBA_SIZE), none)) := by
  intro rgba i1 c1 i2 c2 rgba2 hne h1
  unfold set_index_color_range
  rw [if_neg hne]
  unfold setRangeLoop
  rw [h1]
  constructor
  · intro hbad
    unfold setRangeLoop _set_index_color
    rw [if_pos hbad]
  · intro hgood
    unfold setRangeLoop _set_index_color
    rw [if_neg (by omega)]
    unfold setRangeLoop
    rfl

/-- Witness for the amended C2: both branches evaluated on a concrete
2-entry palette whose first update sets entry 0. -/
theorem batch_sequential_amended_witness :
    (([1, 2] : List Nat).length ≠ RAW_RGBA_SIZE →
      set_index_color_range [0, 0, 0, 0, 0, 0, 0, 0]
        [(.linear 0, [9, 9, 9, 9]), (.linear 1, [1, 2])] =
        ([9, 9, 9, 9, 0, 0, 0, 0], some .typeError)) ∧
    (([7, 7, 7, 7] : List Nat).length = RAW_RGBA_SIZE →
      set_index_color_range [0, 0, 0, 0, 0, 0, 0, 0]
        [(.linear 0, [9, 9, 9, 9]), (.linear 1, [7, 7, 7, 7])] =
        (([9, 9, 9, 9, 0, 0, 0, 0] : List Nat).take
            (_index_to_offset (.linear 1)) ++ [7, 7, 7, 7] ++
          ([9, 9, 9, 9, 0, 0, 0, 0] : List Nat).drop
            (_index_to_offset (.linear 1) + RAW_RGBA_SIZE), none)) :=
  ⟨(batch_sequential_amended [0, 0, 0, 0, 0, 0, 0, 0] (.linear 0)
      [9, 9, 9, 9] (.linear 1) [1, 2] [9, 9, 9, 9, 0, 0, 0, 0]
      (by decide) (by rfl)).1,
   (batch_sequential_amended [0, 0, 0, 0, 0, 0, 0, 0] (.linear 0)
      [9, 9, 9, 9] (.linear 1) [7, 7, 7, 7] [9, 9, 9, 9, 0, 0, 0, 0]
      (by decide) (by rfl)).2⟩

/-! ## Claim theorems: image palette bridge -/

theorem interleaveLoop_spec :
    ∀ (alpha rgb : List Nat), rgb.length = alpha.length * 3 →
      (interleaveLoop rgb alpha).length = rgb.length + alpha.length ∧
      ∀ i, i < alpha.length →
        ((interleaveLoop rgb alpha).drop (4 * i)).take 4 =
          (rgb.drop (3 * i)).take 3 ++ [alpha.getD i 0] := by
  intro alpha
  induction alpha with
  | nil =>
    intro rgb h
    have hrgb : rgb = [] := List.eq_nil_of_length_eq_zero (by simpa using h)
    subst hrgb
    exact ⟨by simp [interleaveLoop], fun i hi => by simp at hi⟩
  | cons a as ih =>
    intro rgb h
    match rgb with
    | [] => simp at h
    | [r1] => simp at h; omega
    | [r1, r2] => simp at h; omega
    | r1 :: r2 :: r3 :: rest =>
      have hr : rest.length = as.length * 3 := by simp at h; omega
      obtain ⟨ihlen, ihslice⟩ := ih rest hr
      constructor
      · simp only [interleaveLoop, List.length_append, List.length_cons,
          ihlen]
        simp
        omega
      · intro i hi
        cases i with
        | zero =>
          simp [interleaveLoop]
        | succ k =>
          have hk : k < as.length := by simp at hi; omega
          have hrec := ihslice k hk
          have e1 : 4 * (k + 1) = 4 + 4 * k := by omega
          have e2 : 3 * (k + 1) = 3 + 3 * k := by omega
          rw [e1, e2]
          show ((([r1, r2, r3] ++ [a] ++
            interleaveLoop rest as).drop (4 + 4 * k)).take 4) = _
          rw [← List.drop_drop]
          have e3 : ([r1, r2, r3] ++ [a] ++
              interleaveLoop rest as).drop 4 = interleaveLoop rest as := by
            simp
          rw [e3]
          have e4 : ((r1 :: r2 :: r3 :: rest).drop (3 + 3 * k)) =
              rest.drop (3 * k) := by
            rw [← List.drop_drop]
            simp
          rw [e4, List.getD_cons_succ]
          exact hrec

/-- C8: loading a palette from the image-side bridge record fails with
FormatError exactly when the flat RGB array's length differs from three
times the alpha array's length; when the lengths match, the resulting
buffer interleaves the supplied arrays as (R,G,B,A) entries in the same
index order as supplied, with no reversal. -/
theorem image_palette_load :
    ∀ rgb alpha : List Nat,
      (rgb.length ≠ alpha.length * 3 →
        _load_png rgb alpha = .error .formatError) ∧
      (rgb.length = alpha.length * 3 →
        ∃ out, _load_png rgb alpha = .ok out ∧
          out.length = rgb.length + alpha.length ∧
          ∀ i, i < alpha.length →
            (out.drop (4 * i)).take 4 =
              (rgb.drop (3 * i)).take 3 ++ [alpha.getD i 0]) := by
  intro rgb alpha
  constructor
  · intro h
    unfold _load_png
    rw [if_pos (by simpa [RAW_RGB_SIZE] using h)]
  · intro h
    refine ⟨interleaveLoop rgb alpha, ?_, interleaveLoop_spec alpha rgb h⟩
    unfold _load_png
    rw [if_neg (by simpa [RAW_RGB_SIZE] using (by omega : ¬ rgb.length ≠ alpha.length * 3))]

/-- Witness for C8: the spec's concrete mismatch (RGB length 30, alpha
length 11) fails with FormatError, and a concrete matched pair of two
entries interleaves in order. -/
theorem image_palette_load_witness :
    _load_png (List.replicate 30 5) (List.replicate 11 6) =
      .error .formatError ∧
    (∃ out, _load_png [1, 2, 3, 4, 5, 6] [100, 200] = .ok out ∧
      out.length = ([1, 2, 3, 4, 5, 6] : List Nat).length +
        ([100, 200] : List Nat).length ∧
      ∀ i, i < ([100, 200] : List Nat).length →
        (out.drop (4 * i)).take 4 =
          (([1, 2, 3, 4, 5, 6] : List Nat).drop (3 * i)).take 3 ++
            [([100, 200] : List Nat).getD i 0]) :=
  ⟨(image_palette_load (List.replicate 30 5) (List.replicate 11 6)).1
     (by simp),
   (image_palette_load [1, 2, 3, 4, 5, 6] [100, 200]).2 (by decide)⟩

/-! ## Claim theorems: get-after-set frame -/

theorem splice_slice_before (l c : List Nat) (off offj : Nat)
    (h1 : offj + 4 ≤ off) (h2 : off ≤ l.length) :
    ((l.take off ++ c ++ l.drop (off + 4)).drop offj).take 4 =
      (l.drop offj).take 4 := by
  rw [List.append_assoc,
    List.drop_append_of_le_length
      (show offj ≤ (l.take off).length by rw [List.length_take]; omega),
    List.take_append_of_le_length
      (show 4 ≤ ((l.take off).drop offj).length by
        rw [List.length_drop, List.length_take]; omega),
    List.drop_take, List.take_take,
    Nat.min_eq_left (by omega)]

theorem splice_slice_after (l c : List Nat) (off offj : Nat)
    (hc : c.length = 4) (h1 : off + 4 ≤ offj) (h2 : off ≤ l.length) :
    ((l.take off ++ c ++ l.drop (off + 4)).drop offj).take 4 =
      (l.drop offj).take 4 := by
  have e : offj = (l.take off ++ c).length + (offj - (off + 4)) := by
    rw [List.length_append, List.length_take]; omega
  conv_lhs => rw [e, List.drop_append]
  rw [List.drop_drop, (show off + 4 + (offj - (off + 4)) = offj by omega)]

/-- C10: get-after-set with frame.  On a loaded palette of N entries, for
any index (linear or coordinate) resolving below N and any 4-byte color,
`set_index_color` succeeds; afterwards `get_index_color` at that index
returns exactly the color, every other in-range index reads the same
bytes as before the set, and the buffer length is unchanged. -/
theorem get_after_set :
    ∀ (rgba : List Nat) (N : Nat) (index : PaletteIndex) (color : List Nat),
      rgba.length = 4 * N → resolveLinear index < N →
      color.length = RAW_RGBA_SIZE →
      ∃ rgba2, set_index_color rgba index color = .ok rgba2 ∧
        rgba2.length = rgba.length ∧
        get_index_color rgba2 index = .ok color ∧
        ∀ jndex : PaletteIndex, resolveLinear jndex < N →
          resolveLinear jndex ≠ resolveLinear index →
          get_index_color rgba2 jndex = get_index_color rgba jndex := by
  intro rgba N index color hlen hi hc
  have hoff : _index_to_offset index = 4 * resolveLinear index := by
    unfold _index_to_offset RAW_RGBA_SIZE; omega
  have hbound : _index_to_offset index + 4 ≤ rgba.length := by
    rw [hoff]; omega
  have hne : rgba ≠ [] := by
    intro h
    rw [h] at hlen
    simp at hlen
    omega
  have hc4 : color.length = 4 := hc
  refine ⟨rgba.take (_index_to_offset index) ++ color ++
    rgba.drop (_index_to_offset index + RAW_RGBA_SIZE), ?_, ?_, ?_, ?_⟩
  · unfold set_index_color
    rw [if_neg hne]
    unfold _set_index_color
    rw [if_neg (not_not_intro hc)]
  · simp only [List.length_append, List.length_take, List.length_drop]
    unfold RAW_RGBA_SIZE
    omega
  · have hne2 : rgba.take (_index_to_offset index) ++ color ++
        rgba.drop (_index_to_offset index + RAW_RGBA_SIZE) ≠ [] := by
      intro h
      have hlen2 := congrArg List.length h
      simp only [List.length_append, List.length_take, List.length_drop,
        List.length_nil] at hlen2
      omega
    unfold get_index_color
    rw [if_neg hne2]
    unfold _get_index_color
    rw [List.append_assoc,
      List.drop_append_of_le_length
        (show _index_to_offset index ≤
          (rgba.take (_index_to_offset index)).length by
          rw [List.length_take]; omega),
      List.drop_of_length_le (by rw [List.length_take]; omega),
      List.nil_append, List.take_append_of_le_length (by omega),
      List.take_of_length_le (by omega)]
  · intro jndex hj hne3
    have hoffj : _index_to_offset jndex = 4 * resolveLinear jndex := by
      unfold _index_to_offset RAW_RGBA_SIZE; omega
    have hne2 : rgba.take (_index_to_offset index) ++ color ++
        rgba.drop (_index_to_offset index + RAW_RGBA_SIZE) ≠ [] := by
      intro h
      have hlen2 := congrArg List.length h
      simp only [List.length_append, List.length_take, List.length_drop,
        List.length_nil] at hlen2
      omega
    unfold get_index_color
    rw [if_neg hne2, if_neg hne]
    unfold _get_index_color
    show Except.ok (List.take RAW_RGBA_SIZE _) = Except.ok (List.take RAW_RGBA_SIZE _)
    unfold RAW_RGBA_SIZE
    rcases Nat.lt_or_ge (resolveLinear jndex) (resolveLinear index) with hlt | hge
    · rw [splice_slice_before rgba color _ _ (by omega) (by omega)]
    · have hgt : resolveLinear index < resolveLinear jndex := by omega
      rw [splice_slice_after rgba color _ _ hc4 (by omega) (by omega)]

/-- Witness for C10: a concrete 2-entry palette, setting entry 0 and
reading back both entries. -/
theorem get_after_set_witness :
    ∃ rgba2,
      set_index_color [1, 2, 3, 4, 5, 6, 7, 8] (.linear 0) [9, 9, 9, 9] =
        .ok rgba2 ∧
      rgba2.length = ([1, 2, 3, 4, 5, 6, 7, 8] : List Nat).length ∧
      get_index_color rgba2 (.linear 0) = .ok [9, 9, 9, 9] ∧
      ∀ jndex : PaletteIndex, resolveLinear jndex < 2 →
        resolveLinear jndex ≠ resolveLinear (.linear 0) →
        get_index_color rgba2 jndex =
          get_index_color [1, 2, 3, 4, 5, 6, 7, 8] jndex :=
  get_after_set [1, 2, 3, 4, 5, 6, 7, 8] 2 (.linear 0) [9, 9, 9, 9]
    (by decide) (by decide) (by decide)

/-! ## Claim theorems: visualization renderer -/

/-- The fill request the renderer issues for linear palette index i:
proof-side closed form of the loop body. -/
def fillCmd (pixelSize i : Nat) : DrawCmd :=
  ⟨(i % 16, i / 16), i, (i % 16) * pixelSize, (i / 16) * pixelSize,
   (i % 16) * pixelSize + pixelSize, (i / 16) * pixelSize + pixelSize,
   (i % 16, i / 16)⟩

theorem drawLoop_eq (ps : Nat) :
    ∀ (rem idx : Nat),
      drawLoop ps (idx % 16) (idx / 16) idx rem =
        (List.range rem).map (fun k => fillCmd ps (idx + k)) := by
  intro rem
  induction rem with
  | zero => intro idx; simp [drawLoop]
  | succ r ih =>
    intro idx
    rw [List.range_succ_eq_map, List.map_cons, List.map_map]
    show drawLoop ps (idx % 16) (idx / 16) idx (Nat.succ r) = _
    unfold drawLoop
    have e1 : (idx % 16 + 1) % PALETTE_SQUARE_SIZE = (idx + 1) % 16 := by
      unfold PALETTE_SQUARE_SIZE; omega
    rw [e1]
    have e2 : (if (idx + 1) % 16 = 0 then idx / 16 + 1 else idx / 16) =
        (idx + 1) / 16 := by
      split <;> omega
    rw [e2, ih (idx + 1)]
    have e3 : ((fun k => fillCmd ps (idx + k)) ∘ Nat.succ) =
        (fun k => fillCmd ps (idx + 1 + k)) := by
      funext k
      show fillCmd ps (idx + (k + 1)) = fillCmd ps (idx + 1 + k)
      rw [show idx + (k + 1) = idx + 1 + k by omega]
    rw [e3]
    show _ :: _ = fillCmd ps (idx + 0) :: _
    rw [show idx + 0 = idx by omega]
    rfl

theorem draw_image_eq (ps : Nat) :
    _draw_image ps = (List.range 256).map (fillCmd ps) := by
  show drawLoop ps 0 0 0 HPL_MAX_COLORS = _
  have := drawLoop_eq ps HPL_MAX_COLORS 0
  simp only [Nat.zero_mod, Nat.zero_div, Nat.zero_add] at this
  rw [this]
  rfl

theorem linearToCoord_eq (i : Nat) : linearToCoord i = (i % 16, i / 16) := by
  unfold linearToCoord PALETTE_SQUARE_SIZE
  rw [Prod.mk.injEq]
  constructor
  · rfl
  · omega

theorem grid_cell_unique (a b ps v : Nat) (ha1 : a * ps ≤ v)
    (ha2 : v < a * ps + ps) (hb1 : b * ps ≤ v) (hb2 : v < b * ps + ps) :
    a = b := by
  rcases Nat.lt_trichotomy a b with h | h | h
  · exfalso
    have : (a + 1) * ps ≤ b * ps := Nat.mul_le_mul_right ps (by omega)
    rw [Nat.succ_mul] at this
    omega
  · exact h
  · exfalso
    have : (b + 1) * ps ≤ a * ps := Nat.mul_le_mul_right ps (by omega)
    rw [Nat.succ_mul] at this
    omega

/-- C9: for every pixel block size, the renderer issues exactly 256 fill
requests, one per linear palette index.  The request for index i carries
the colors-dict assignment mapping i's (column, row) coordinate to the
palette index i (so the raster collaborator resolves the fill to the
palette entry at i), fills the block anchored at
(column*pixelSize, row*pixelSize) of side pixelSize, and the 256 blocks
are pairwise disjoint and tile the pixelSize*16 square. -/
theorem renderer_grid (ps : Nat) :
    (_draw_image ps).length = HPL_MAX_COLORS ∧
    (∀ (i : Nat) (c : DrawCmd), (_draw_image ps)[i]? = some c →
      c.colorsKey = linearToCoord i ∧ c.colorsVal = i ∧
      c.fill = linearToCoord i ∧
      c.x0 = (linearToCoord i).1 * ps ∧ c.y0 = (linearToCoord i).2 * ps ∧
      c.x1 = c.x0 + ps ∧ c.y1 = c.y0 + ps) ∧
    (∀ (i j : Nat) (ci cj : DrawCmd) (p : Nat × Nat), i ≠ j →
      (_draw_image ps)[i]? = some ci → (_draw_image ps)[j]? = some cj →
      ¬(cmdCovers ci p ∧ cmdCovers cj p)) ∧
    (∀ p : Nat × Nat, (p.1 < ps * 16 ∧ p.2 < ps * 16) ↔
      ∃ (i : Nat) (c : DrawCmd),
        (_draw_image ps)[i]? = some c ∧ cmdCovers c p) := by
  have hget : ∀ i, i < 256 → (_draw_image ps)[i]? = some (fillCmd ps i) := by
    intro i hi
    rw [draw_image_eq, List.getElem?_map, List.getElem?_range hi]
    rfl
  have hget2 : ∀ (i : Nat) (c : DrawCmd), (_draw_image ps)[i]? = some c →
      i < 256 ∧ c = fillCmd ps i := by
    intro i c h
    have hi : i < 256 := by
      have := (List.getElem?_eq_some.mp h).1
      rw [draw_image_eq] at this
      simpa using this
    refine ⟨hi, ?_⟩
    rw [hget i hi] at h
    exact (Option.some.injEq _ _).mp h.symm
  refine ⟨?_, ?_, ?_, ?_⟩
  · rw [draw_image_eq]
    simp [HPL_MAX_COLORS]
  · intro i c h
    obtain ⟨hi, rfl⟩ := hget2 i c h
    refine ⟨?_, rfl, ?_, ?_, ?_, rfl, rfl⟩ <;>
      rw [linearToCoord_eq] <;> rfl
  · intro i j ci cj p hij hi hj
    obtain ⟨hilt, rfl⟩ := hget2 i ci hi
    obtain ⟨hjlt, rfl⟩ := hget2 j cj hj
    intro ⟨hci, hcj⟩
    unfold cmdCovers fillCmd at hci hcj
    simp only at hci hcj
    obtain ⟨a1, a2, a3, a4⟩ := hci
    obtain ⟨b1, b2, b3, b4⟩ := hcj
    have ex : i % 16 = j % 16 := grid_cell_unique _ _ _ _ a1 a2 b1 b2
    have ey : i / 16 = j / 16 := grid_cell_unique _ _ _ _ a3 a4 b3 b4
    omega
  · intro p
    constructor
    · intro ⟨h1, h2⟩
      have hps : 0 < ps := by omega
      have hx : p.1 / ps < 16 := (Nat.div_lt_iff_lt_mul hps).mpr (by omega)
      have hy : p.2 / ps < 16 := (Nat.div_lt_iff_lt_mul hps).mpr (by omega)
      refine ⟨p.2 / ps * 16 + p.1 / ps, fillCmd ps (p.2 / ps * 16 + p.1 / ps),
        hget _ (by omega), ?_⟩
      have exm : (p.2 / ps * 16 + p.1 / ps) % 16 = p.1 / ps := by
        rw [Nat.add_comm, Nat.add_mul_mod_self_right, Nat.mod_eq_of_lt hx]
      have eyd : (p.2 / ps * 16 + p.1 / ps) / 16 = p.2 / ps :=
        Nat.div_eq_of_lt_le (by omega) (by rw [Nat.succ_mul]; omega)
      unfold cmdCovers fillCmd
      simp only [exm, eyd]
      have m1 := Nat.div_add_mod p.1 ps
      have m2 := Nat.div_add_mod p.2 ps
      have m3 := Nat.mod_lt p.1 hps
      have m4 := Nat.mod_lt p.2 hps
      rw [Nat.mul_comm ps (p.1 / ps)] at m1
      rw [Nat.mul_comm ps (p.2 / ps)] at m2
      refine ⟨Nat.div_mul_le_self _ _, by omega, Nat.div_mul_le_self _ _,
        by omega⟩
    · intro ⟨i, c, h, hcov⟩
      obtain ⟨hi, rfl⟩ := hget2 i c h
      unfold cmdCovers fillCmd at hcov
      simp only at hcov
      obtain ⟨a1, a2, a3, a4⟩ := hcov
      have e1 : (i % 16 + 1) * ps ≤ 16 * ps :=
        Nat.mul_le_mul_right ps (by omega)
      have e2 : (i / 16 + 1) * ps ≤ 16 * ps :=
        Nat.mul_le_mul_right ps (by omega)
      rw [Nat.succ_mul] at e1 e2
      constructor
      · rw [Nat.mul_comm ps 16]
        omega
      · rw [Nat.mul_comm ps 16]
        omega

/-- Witness for C9: with pixel block size 2, request 17 maps the
coordinate (1, 1) to palette index 17 and covers the concrete pixel
(3, 2); the pixel (3, 2) is inside the 32x32 square. -/
theorem renderer_grid_witness :
    (_draw_image 2).length = HPL_MAX_COLORS ∧
    (((3 : Nat), (2 : Nat)).1 < 2 * 16 ∧ ((3 : Nat), (2 : Nat)).2 < 2 * 16 ↔
      ∃ (i : Nat) (c : DrawCmd),
        (_draw_image 2)[i]? = some c ∧ cmdCovers c (3, 2)) :=
  ⟨(renderer_grid 2).1, (renderer_grid 2).2.2.2 (3, 2)⟩
